import Mathlib

/-!
Shallow embedding of `src/app.py` (campaign-core): a Flask app running
outbound bulk-email campaigns with token-based reply correlation.

Python strings are modelled as `List Char` (`Str`); the Supabase tables
`campaigns`, `recipients`, `campaign_tokens`, `replies` are modelled as
lists inside a `DB` record; `os.urandom` is modelled as an explicit byte
list / entropy oracle; the Mailgun transport is modelled as a per-recipient
success oracle.  Timestamps (`created_at`, `received_at`) are omitted: no
code path of the claims reads them.
-/

-- ---------------------------------------------------------------------
-- Definitions
-- ---------------------------------------------------------------------

abbrev Str := List Char

/-- The whitespace set of Python's `str.strip()`. -/
def isPySpace (c : Char) : Bool :=
  c == ' ' || c == '\t' || c == '\n' || c == '\r' || c == '\x0b' || c == '\x0c'

/-- Python `s.strip()`: drop whitespace from both ends. -/
def pyStrip (s : Str) : Str :=
  ((s.dropWhile isPySpace).reverse.dropWhile isPySpace).reverse

/-- Python `s.split(m, 1)[0]`: the part of `s` before the first occurrence
of `m` (all of `s` when `m` does not occur). -/
def splitBefore (m : Str) : Str → Str
  | [] => []
  | c :: rest => if m.isPrefixOf (c :: rest) then [] else c :: splitBefore m rest

/-- Python `m in s` for strings: substring containment. -/
def inStr (m : Str) : Str → Bool
  | [] => m.isPrefixOf []
  | c :: rest => m.isPrefixOf (c :: rest) || inStr m rest

/-- The quote markers of `clean_body` (app.py line 66), in iteration order. -/
def markers : List Str := ["\nOn ".data, "\nFrom:".data, "\n>".data]

/-- app.py `clean_body`: truncate at each marker in turn, then strip. -/
def clean_body (text : Str) : Str :=
  pyStrip (markers.foldl (fun t m => if inStr m t then splitBefore m t else t) text)

/-- The lowercase hex digits, as used by Python `bytes.hex()`. -/
def hexChars : Str := "0123456789abcdef".data

/-- Hex rendering of one byte (two lowercase hex digits). -/
def byteHex (b : Nat) : Str :=
  [hexChars.getD (b / 16 % 16) '0', hexChars.getD (b % 16) '0']

/-- app.py `create_token`: `os.urandom(8).hex()`, with the random bytes made
an explicit argument. -/
def create_token (bytes : List Nat) : Str := (bytes.map byteHex).flatten

/-- The reply-address local part `"reply+" + token` (app.py `send_one_email`). -/
def encode_token (t : Str) : Str := "reply+".data ++ t

/-- The full Reply-To address `reply+<token>@<domain>`. -/
def reply_address (t : Str) (domain : Str) : Str := encode_token t ++ '@' :: domain

/-- Token extraction from an inbound recipient address
(app.py `mailgun_webhook` lines 133-134):
`recipient.split("reply+", 1)[1].split("@", 1)[0]` under the guard
`recipient.startswith("reply+") and "@" in recipient`.  Under the guard the
first occurrence of `"reply+"` is at position 0, so the first split is
`recipient.drop 6`, and the second split keeps everything before the first
`'@'`. -/
def decode_recipient (r : Str) : Option Str :=
  if ("reply+".data).isPrefixOf r ∧ '@' ∈ r then
    some ((r.drop 6).takeWhile (fun c => c != '@'))
  else none

/-- A single marker pass of `clean_body`. -/
def cleanStep (t : Str) (m : Str) : Str := if inStr m t then splitBefore m t else t

structure Campaign where
  name : Str
  status : Str
  subject : Option Str
  body : Option Str
  recipient_count : Nat
deriving DecidableEq, Repr

structure Recipient where
  campaign_id : Nat
  token : Str
  email : Str
deriving DecidableEq, Repr

structure TokenRow where
  token : Str
  campaign_id : Nat
deriving DecidableEq, Repr

structure Reply where
  token : Str
  campaign_id : Option Nat
  subject : Option Str
  body : Str
  message_id : Str
deriving DecidableEq, Repr

structure DB where
  campaigns : List (Nat × Campaign)
  recipients : List Recipient
  campaign_tokens : List TokenRow
  replies : List Reply
  nextId : Nat
deriving DecidableEq, Repr

def DB.empty : DB := ⟨[], [], [], [], 0⟩

/-- A structured error response: message and HTTP status code. -/
structure ErrResp where
  error : Str
  code : Nat
deriving DecidableEq, Repr

structure HttpResp where
  body : Str
  code : Nat
deriving DecidableEq, Repr

def okResp : HttpResp := ⟨"OK".data, 200⟩

/-- First row of `campaigns` whose id matches (Supabase `.eq("id", ...).single()`). -/
def findCamp (l : List (Nat × Campaign)) (cid : Nat) : Option Campaign :=
  (l.find? (fun p => p.1 == cid)).map Prod.snd

/-- app.py `get_campaign`. -/
def get_campaign (db : DB) (cid : Nat) : Option Campaign := findCamp db.campaigns cid

def statusOf (db : DB) (cid : Nat) : Option Str := (get_campaign db cid).map Campaign.status

/-- SQL `update ... where id = cid` on the campaigns table. -/
def updateCamps (l : List (Nat × Campaign)) (cid : Nat) (f : Campaign → Campaign) :
    List (Nat × Campaign) :=
  l.map (fun p => if p.1 == cid then (p.1, f p.2) else p)

def updateCampaign (db : DB) (cid : Nat) (f : Campaign → Campaign) : DB :=
  { db with campaigns := updateCamps db.campaigns cid f }

structure CreateOk where
  id : Nat
  campaign : Campaign
deriving DecidableEq, Repr

/-- app.py `create_campaign` (POST /campaigns).  The Supabase-assigned row id
is modelled by the `nextId` counter. -/
def create_campaign (db : DB) (name : Str) : DB × Except ErrResp CreateOk :=
  if pyStrip name = [] then (db, .error ⟨"name required".data, 400⟩)
  else
    ({ db with
        campaigns := db.campaigns ++
          [(db.nextId, ⟨pyStrip name, "draft".data, none, none, 0⟩)],
        nextId := db.nextId + 1 },
      .ok ⟨db.nextId, ⟨pyStrip name, "draft".data, none, none, 0⟩⟩)

structure ContentOk where
  campaign_id : Nat
  campaign_status : Str
deriving DecidableEq, Repr

/-- The body of `set_campaign_content` once the campaign row is fetched. -/
def contentBody (db : DB) (cid : Nat) (camp : Campaign) (subject body : Str) :
    DB × Except ErrResp ContentOk :=
  if camp.status = "sent".data then (db, .error ⟨"campaign already sent".data, 400⟩)
  else
    (updateCampaign db cid
      (fun c => { c with
        subject := some (pyStrip subject),
        body := some (pyStrip body),
        status := if 0 < camp.recipient_count then "audience".data else "ready".data }),
      .ok ⟨cid, if 0 < camp.recipient_count then "audience".data else "ready".data⟩)

/-- app.py `set_campaign_content` (POST /campaigns/id/content). -/
def set_campaign_content (db : DB) (cid : Nat) (subject body : Str) :
    DB × Except ErrResp ContentOk :=
  if pyStrip subject = [] ∨ pyStrip body = [] then
    (db, .error ⟨"subject and body required".data, 400⟩)
  else
    match get_campaign db cid with
    | none => (db, .error ⟨"campaign not found".data, 404⟩)
    | some camp => contentBody db cid camp subject body

structure UploadOk where
  campaign_id : Nat
  count : Nat
  status : Str
  map : List (Str × Str)
deriving DecidableEq, Repr

/-- The per-email loop of `upload_emails` (app.py lines 284-306): trim, drop
invalid entries, and pair each surviving address with the next generated
token.  `gen k` models the k-th `create_token()` call of this request. -/
def uploadLoop (gen : Nat → Str) : Nat → List Str → List (Str × Str)
  | _, [] => []
  | k, e :: rest =>
    let e' := pyStrip e
    if e' = [] ∨ '@' ∉ e' then uploadLoop gen k rest
    else (e', gen k) :: uploadLoop gen (k + 1) rest

/-- The status derivation of `upload_emails` (app.py line 312):
`"audience" if has_content and count > 0 else "draft" if not has_content
else "ready"`, with `has_content` read from the fetched campaign's subject. -/
def uploadNextStatus (camp : Campaign) (count : Nat) : Str :=
  if pyStrip (camp.subject.getD []) ≠ [] ∧ 0 < count then "audience".data
  else if ¬ (pyStrip (camp.subject.getD []) ≠ []) then "draft".data
  else "ready".data

/-- The body of `upload_emails` once the campaign row is fetched: validation,
full replacement of recipient and token rows, and the status update. -/
def uploadBody (db : DB) (cid : Nat) (camp : Campaign) (emails : List Str) (gen : Nat → Str) :
    DB × Except ErrResp UploadOk :=
  if camp.status = "sent".data then (db, .error ⟨"campaign already sent".data, 400⟩)
  else if emails = [] then (db, .error ⟨"emails must be a list".data, 400⟩)
  else if 1000 < emails.length then (db, .error ⟨"max 1000 emails per request".data, 400⟩)
  else
    (updateCampaign
      { db with
        recipients := db.recipients.filter (fun r => r.campaign_id != cid)
          ++ (uploadLoop gen 0 emails).map (fun p => ⟨cid, p.2, p.1⟩),
        campaign_tokens := db.campaign_tokens.filter (fun t => t.campaign_id != cid)
          ++ (uploadLoop gen 0 emails).map (fun p => ⟨p.2, cid⟩) }
      cid
      (fun c => { c with
        recipient_count := (uploadLoop gen 0 emails).length,
        status := uploadNextStatus camp (uploadLoop gen 0 emails).length }),
      .ok ⟨cid, (uploadLoop gen 0 emails).length,
        uploadNextStatus camp (uploadLoop gen 0 emails).length, uploadLoop gen 0 emails⟩)

/-- app.py `upload_emails` (POST /campaigns/id/upload-emails). -/
def upload_emails (db : DB) (cid : Nat) (emails : List Str) (gen : Nat → Str) :
    DB × Except ErrResp UploadOk :=
  match get_campaign db cid with
  | none => (db, .error ⟨"campaign not found".data, 404⟩)
  | some camp => uploadBody db cid camp emails gen

structure SendOk where
  campaign_id : Nat
  sent : Nat
  failed : Nat
  status : Str
deriving DecidableEq, Repr

/-- One Mailgun send request (app.py `send_one_email`): its payload, with the
Reply-To built from the recipient's token. -/
structure Attempt where
  to_email : Str
  subject : Str
  body : Str
  reply_to : Str
deriving DecidableEq, Repr

def send_one_email (rd : Str) (to_email : Str) (subject body token : Str) : Attempt :=
  ⟨to_email, subject, body, reply_address token rd⟩

/-- The per-recipient send loop of `send_campaign` (app.py lines 377-388).
`outcome i` models whether the i-th transport call succeeds; a failure is
caught and counted, not propagated. -/
def dispatch (rd : Str) (subject body : Str) (outcome : Nat → Bool) :
    Nat → List Recipient → List Attempt × Nat × Nat
  | _, [] => ([], 0, 0)
  | i, r :: rest =>
    let a := send_one_email rd r.email subject body r.token
    let rest_result := dispatch rd subject body outcome (i + 1) rest
    (a :: rest_result.1,
      (if outcome i then rest_result.2.1 + 1 else rest_result.2.1),
      (if outcome i then rest_result.2.2 else rest_result.2.2 + 1))

/-- The recipient rows of one campaign (Supabase `.eq("campaign_id", cid)`). -/
def campRecipients (db : DB) (cid : Nat) : List Recipient :=
  db.recipients.filter (fun r => r.campaign_id == cid)

/-- The dispatch loop of one send call, fed with the fetched campaign's
stripped subject and body and the campaign's recipient rows. -/
def sendDispatch (db : DB) (cid : Nat) (camp : Campaign) (rd : Str) (outcome : Nat → Bool) :
    List Attempt × Nat × Nat :=
  dispatch rd (pyStrip (camp.subject.getD [])) (pyStrip (camp.body.getD [])) outcome 0
    (campRecipients db cid)

/-- The body of `send_campaign` once the campaign row is fetched. -/
def sendBody (db : DB) (cid : Nat) (camp : Campaign) (rd : Str) (outcome : Nat → Bool) :
    DB × List Attempt × Except ErrResp SendOk :=
  if camp.status = "sent".data then (db, [], .error ⟨"campaign already sent".data, 400⟩)
  else if pyStrip (camp.subject.getD []) = [] ∨ pyStrip (camp.body.getD []) = [] then
    (db, [], .error ⟨"campaign content not set".data, 400⟩)
  else if campRecipients db cid = [] then
    (db, [], .error ⟨"no recipients uploaded".data, 400⟩)
  else
    (updateCampaign db cid (fun c => { c with status := "sent".data }),
      (sendDispatch db cid camp rd outcome).1,
      .ok ⟨cid, (sendDispatch db cid camp rd outcome).2.1,
        (sendDispatch db cid camp rd outcome).2.2, "sent".data⟩)

/-- app.py `send_campaign` (POST /campaigns/id/send).  Returns the new state,
the list of transport requests attempted, and the HTTP result. -/
def send_campaign (db : DB) (cid : Nat) (rd : Str) (outcome : Nat → Bool) :
    DB × List Attempt × Except ErrResp SendOk :=
  match get_campaign db cid with
  | none => (db, [], .error ⟨"campaign not found".data, 404⟩)
  | some camp => sendBody db cid camp rd outcome

/-- Python falsiness of an optional form field (`None` or `""`). -/
def falsyOpt (o : Option Str) : Bool :=
  match o with
  | none => true
  | some s => s.isEmpty

/-- Which storage calls of the webhook fail by raising (the handler has no
try/except, so a raise propagates out of the route). -/
structure WebFail where
  dedup_fails : Bool
  lookup_fails : Bool
  insert_fails : Bool

def noFail : WebFail := ⟨false, false, false⟩

/-- app.py `mailgun_webhook` (POST /mailgun).  `Except.error` models an
uncaught storage exception escaping the handler (Flask then answers 500). -/
def mailgun_webhook_f (db : DB) (recipient : Str) (subject bodyPlain message_id : Option Str)
    (fl : WebFail) : Except Unit (DB × HttpResp) :=
  if falsyOpt (decode_recipient recipient) || falsyOpt bodyPlain || falsyOpt message_id then
    .ok (db, okResp)
  else if fl.dedup_fails then .error ()
  else if (db.replies.find? (fun rp => rp.message_id == message_id.getD [])).isSome then
    .ok (db, okResp)
  else if fl.lookup_fails then .error ()
  else if fl.insert_fails then .error ()
  else
    .ok ({ db with replies := db.replies ++
      [⟨(decode_recipient recipient).getD [],
        (db.campaign_tokens.find? (fun tr =>
          tr.token == (decode_recipient recipient).getD [])).map TokenRow.campaign_id,
        subject, clean_body (bodyPlain.getD []), message_id.getD []⟩] }, okResp)

/-- The entries of a batch that survive trimming and validation. -/
def validEmails (emails : List Str) : List Str :=
  (emails.map pyStrip).filter (fun e => decide (e ≠ [] ∧ '@' ∈ e))

/-- A concrete already-sent campaign state, used by witnesses. -/
def dbSent : DB :=
  ⟨[(0, ⟨"Q1".data, "sent".data, some "Hi".data, some "Hello".data, 1⟩)],
    [⟨0, "t0".data, "a@x".data⟩], [⟨"t0".data, 0⟩], [], 1⟩

/-- The address-token pairs a successful upload returns: the valid entries of
the batch, each paired with the next generator output. -/
def uploadPairs (gen : Nat → Str) (emails : List Str) : List (Str × Str) :=
  (validEmails emails).zip ((List.range (validEmails emails).length).map gen)

/-- A concrete campaign with content set and no audience yet. -/
def dbReady : DB :=
  ⟨[(0, ⟨"Q1".data, "ready".data, some "Hi".data, some "Hello".data, 0⟩)], [], [], [], 1⟩

/-- A concrete sendable campaign: content set, one recipient uploaded. -/
def dbAud : DB :=
  ⟨[(0, ⟨"Q1".data, "audience".data, some "Hi".data, some "Hello".data, 1⟩)],
    [⟨0, "t0".data, "a@x".data⟩], [⟨"t0".data, 0⟩], [], 1⟩

/-- The state produced by a webhook call that stores a reply: the Reply row
carries the decoded token, the token's campaign (null when unknown), the raw
subject, the sanitized body and the provider message id. -/
def webhookInsert (db : DB) (r : Str) (s : Option Str) (b m : Str) : DB :=
  { db with replies := db.replies ++
    [⟨(decode_recipient r).getD [],
      (db.campaign_tokens.find? (fun tr => tr.token == (decode_recipient r).getD [])).map
        TokenRow.campaign_id, s, clean_body b, m⟩] }

/-- Position of a status in the order draft < ready < audience < sent. -/
def rank (s : Str) : Nat :=
  if s = "draft".data then 0
  else if s = "ready".data then 1
  else if s = "audience".data then 2
  else if s = "sent".data then 3
  else 0

/-- One API operation, with its nondeterminism (entropy, transport outcomes)
made explicit. -/
inductive Op where
  | createOp (name : Str)
  | contentOp (tid : Nat) (subject body : Str)
  | uploadOp (tid : Nat) (emails : List Str) (gen : Nat → Str)
  | sendOp (tid : Nat) (rd : Str) (outcome : Nat → Bool)
  | ingestOp (recipient : Str) (subject bodyPlain message_id : Option Str)

/-- The state reached after one operation (with storage succeeding). -/
def applyOp (db : DB) : Op → DB
  | .createOp nm => (create_campaign db nm).1
  | .contentOp tid s b => (set_campaign_content db tid s b).1
  | .uploadOp tid es gen => (upload_emails db tid es gen).1
  | .sendOp tid rd oc => (send_campaign db tid rd oc).1
  | .ingestOp r s b m =>
    match mailgun_webhook_f db r s b m noFail with
    | .ok p => p.1
    | .error _ => db

/-- The reachable-state invariant of one campaign row: a known status; a
draft has no content; ready and audience have content; audience has a
nonzero stored recipient count. -/
def campOK (c : Campaign) : Prop :=
  (c.status = "draft".data ∨ c.status = "ready".data ∨ c.status = "audience".data ∨
    c.status = "sent".data) ∧
  (c.status = "draft".data → pyStrip (c.subject.getD []) = []) ∧
  ((c.status = "ready".data ∨ c.status = "audience".data) → pyStrip (c.subject.getD []) ≠ []) ∧
  (c.status = "audience".data → 0 < c.recipient_count)

def CampInv (db : DB) (cid : Nat) : Prop :=
  ∃ c, get_campaign db cid = some c ∧ campOK c

-- ---------------------------------------------------------------------
-- Theorems
-- ---------------------------------------------------------------------

theorem inStr_iff (m : Str) (l : Str) : inStr m l = true ↔ m <:+: l := by
  induction l with
  | nil => simp [inStr, List.isPrefixOf_iff_prefix]
  | cons c rest ih =>
    simp [inStr, List.isPrefixOf_iff_prefix, List.infix_cons_iff, ih]

theorem splitBefore_pre (m : Str) (s : Str) : splitBefore m s <+: s := by
  induction s with
  | nil => simp [splitBefore]
  | cons c rest ih =>
    rw [splitBefore]
    split
    · exact List.nil_prefix
    · exact List.cons_prefix_cons.mpr ⟨rfl, ih⟩

theorem not_infix_splitBefore (m : Str) (s : Str) (hm : m ≠ []) :
    ¬ m <:+: splitBefore m s := by
  induction s with
  | nil => simpa [splitBefore] using hm
  | cons c rest ih =>
    rw [splitBefore]
    split
    · simpa using hm
    · intro hinf
      rcases List.infix_cons_iff.mp hinf with hpre | hinf'
      · rename_i hnp
        exact hnp (List.isPrefixOf_iff_prefix.mpr
          (hpre.trans (List.cons_prefix_cons.mpr ⟨rfl, splitBefore_pre m rest⟩)))
      · exact ih hinf'

theorem not_infix_of_pre {m t t' : Str} (h : ¬ m <:+: t) (hp : t' <+: t) :
    ¬ m <:+: t' := fun hinf => h (hinf.trans hp.isInfix)

theorem not_infix_of_inf {m t t' : Str} (h : ¬ m <:+: t) (hp : t' <:+: t) :
    ¬ m <:+: t' := fun hinf => h (hinf.trans hp)

theorem dropWhile_head_false {p : Char → Bool} {l : Str} {c : Char} {t : Str}
    (h : l.dropWhile p = c :: t) : p c = false := by
  induction l with
  | nil => simp at h
  | cons a l' ih =>
    rw [List.dropWhile_cons] at h
    split at h
    · exact ih h
    · rename_i ha
      obtain ⟨rfl, _⟩ : a = c ∧ l' = t := by
        constructor <;> [exact (List.cons.injEq .. ▸ h).1; exact (List.cons.injEq .. ▸ h).2]
      simpa using ha

theorem dropWhile_of_prefix {p : Char → Bool} {v l : Str}
    (h : v <+: l.dropWhile p) : v.dropWhile p = v := by
  cases hv : v with
  | nil => simp
  | cons c v' =>
    subst hv
    rcases h with ⟨t, ht⟩
    have : l.dropWhile p = c :: (v' ++ t) := by rw [← ht]; simp
    rw [List.dropWhile_cons, dropWhile_head_false this]
    simp

theorem dropWhile_idem (p : Char → Bool) (l : Str) :
    (l.dropWhile p).dropWhile p = l.dropWhile p :=
  dropWhile_of_prefix (List.prefix_refl _)

theorem pyStrip_idem (s : Str) : pyStrip (pyStrip s) = pyStrip s := by
  unfold pyStrip
  set u := s.dropWhile isPySpace with hu
  set w := u.reverse.dropWhile isPySpace with hw
  have hvu : w.reverse <+: u := by
    have h := List.reverse_prefix.mpr (hw ▸ List.dropWhile_suffix (l := u.reverse) isPySpace)
    rwa [List.reverse_reverse] at h
  have h1 : w.reverse.dropWhile isPySpace = w.reverse := by
    refine dropWhile_of_prefix (p := isPySpace) (l := s) ?_
    exact hu ▸ hvu
  rw [h1, List.reverse_reverse, hw, dropWhile_idem]

theorem pyStrip_inf (s : Str) : pyStrip s <:+: s := by
  unfold pyStrip
  have h1 : (s.dropWhile isPySpace).reverse.dropWhile isPySpace <:+
      (s.dropWhile isPySpace).reverse := List.dropWhile_suffix _
  have h2 := List.reverse_prefix.mpr h1
  rw [List.reverse_reverse] at h2
  exact h2.isInfix.trans (List.dropWhile_suffix isPySpace).isInfix

theorem cleanStep_pre (t m : Str) : cleanStep t m <+: t := by
  unfold cleanStep
  split
  · exact splitBefore_pre m t
  · exact List.prefix_refl t

theorem not_infix_cleanStep (t m : Str) (hm : m ≠ []) : ¬ m <:+: cleanStep t m := by
  unfold cleanStep
  split
  · exact not_infix_splitBefore m t hm
  · rename_i h
    intro hinf
    exact h ((inStr_iff m t).mpr hinf)

theorem cleanStep_no_marker {t m : Str} (h : ¬ m <:+: t) : cleanStep t m = t := by
  unfold cleanStep
  split
  · rename_i hin
    exact absurd ((inStr_iff m t).mp hin) h
  · rfl

theorem clean_body_eq (text : Str) :
    clean_body text = pyStrip (cleanStep (cleanStep (cleanStep text "\nOn ".data)
      "\nFrom:".data) "\n>".data) := rfl

theorem clean_body_idem (x : Str) : clean_body (clean_body x) = clean_body x := by
  rw [clean_body_eq x]
  set t1 := cleanStep x "\nOn ".data with ht1
  set t2 := cleanStep t1 "\nFrom:".data with ht2
  set t3 := cleanStep t2 "\n>".data with ht3
  have h21 : t2 <+: t1 := ht2 ▸ cleanStep_pre t1 _
  have h32 : t3 <+: t2 := ht3 ▸ cleanStep_pre t2 _
  have hm1 : ¬ "\nOn ".data <:+: t3 :=
    not_infix_of_pre (not_infix_of_pre (ht1 ▸ not_infix_cleanStep x _ (by decide)) h21) h32
  have hm2 : ¬ "\nFrom:".data <:+: t3 :=
    not_infix_of_pre (ht2 ▸ not_infix_cleanStep t1 _ (by decide)) h32
  have hm3 : ¬ "\n>".data <:+: t3 := ht3 ▸ not_infix_cleanStep t2 _ (by decide)
  set y := pyStrip t3 with hy
  have hyt : y <:+: t3 := hy ▸ pyStrip_inf t3
  rw [clean_body_eq y]
  rw [cleanStep_no_marker (not_infix_of_inf hm1 hyt)]
  rw [cleanStep_no_marker (not_infix_of_inf hm2 hyt)]
  rw [cleanStep_no_marker (not_infix_of_inf hm3 hyt)]
  rw [hy, pyStrip_idem]

theorem findCamp_update_ne (l : List (Nat × Campaign)) (tid cid : Nat)
    (f : Campaign → Campaign) (h : tid ≠ cid) :
    findCamp (updateCamps l tid f) cid = findCamp l cid := by
  induction l with
  | nil => rfl
  | cons p l ih =>
    rcases p with ⟨k, c⟩
    by_cases hkt : k = tid
    · have hkc : ¬ k = cid := by rw [hkt]; exact h
      simp only [updateCamps, findCamp, List.map_cons, List.find?_cons] at ih ⊢
      simp only [hkt, beq_self_eq_true, if_true]
      simp only [show ((tid : Nat) == cid) = false by simpa using h]
      simpa [hkt] using ih
    · by_cases hkc : k = cid
      · simp only [updateCamps, findCamp, List.map_cons, List.find?_cons]
        simp only [show ((k : Nat) == tid) = false by simpa using hkt, Bool.false_eq_true, if_false]
        simp [hkc]
      · simp only [updateCamps, findCamp, List.map_cons, List.find?_cons] at ih ⊢
        simp only [show ((k : Nat) == tid) = false by simpa using hkt, Bool.false_eq_true,
          if_false, show ((k : Nat) == cid) = false by simpa using hkc]
        exact ih

theorem findCamp_update_self (l : List (Nat × Campaign)) (tid : Nat)
    (f : Campaign → Campaign) :
    findCamp (updateCamps l tid f) tid = (findCamp l tid).map f := by
  induction l with
  | nil => rfl
  | cons p l ih =>
    rcases p with ⟨k, c⟩
    by_cases hkt : k = tid
    · simp only [updateCamps, findCamp, List.map_cons, List.find?_cons]
      simp [hkt]
    · simp only [updateCamps, findCamp, List.map_cons, List.find?_cons] at ih ⊢
      simp only [show ((k : Nat) == tid) = false by simpa using hkt, Bool.false_eq_true, if_false]
      exact ih

theorem findCamp_append (l l2 : List (Nat × Campaign)) (cid : Nat) (c : Campaign)
    (h : findCamp l cid = some c) : findCamp (l ++ l2) cid = some c := by
  unfold findCamp at h ⊢
  rw [List.find?_append]
  rcases ho : l.find? (fun p => p.1 == cid) with _ | p
  · rw [ho] at h; simp at h
  · rw [ho] at h ⊢
    simpa using h

theorem uploadLoop_eq (gen : Nat → Str) (emails : List Str) : ∀ k : Nat,
    uploadLoop gen k emails =
      (validEmails emails).zip
        ((List.range (validEmails emails).length).map (fun i => gen (k + i))) := by
  induction emails with
  | nil => intro k; rfl
  | cons e rest ih =>
    intro k
    by_cases hv : pyStrip e = [] ∨ '@' ∉ pyStrip e
    · have hfil : (decide (pyStrip e ≠ [] ∧ '@' ∈ pyStrip e)) = false := by
        rcases hv with h1 | h1 <;> simp [h1]
      rw [show uploadLoop gen k (e :: rest) = uploadLoop gen k rest by
        simp only [uploadLoop]; rw [if_pos hv]]
      rw [show validEmails (e :: rest) = validEmails rest by
        unfold validEmails; rw [List.map_cons, List.filter_cons_of_neg (by simpa using hfil)]]
      exact ih k
    · have hfil : (decide (pyStrip e ≠ [] ∧ '@' ∈ pyStrip e)) = true := by
        push_neg at hv
        simp [hv.1, hv.2]
      rw [show uploadLoop gen k (e :: rest) =
          (pyStrip e, gen k) :: uploadLoop gen (k + 1) rest by
        simp only [uploadLoop]; rw [if_neg hv]]
      rw [show validEmails (e :: rest) = pyStrip e :: validEmails rest by
        unfold validEmails; rw [List.map_cons, List.filter_cons_of_pos (by simpa using hfil)]]
      rw [ih (k + 1)]
      rw [List.length_cons, List.range_succ_eq_map, List.map_cons, List.map_map]
      rw [List.zip_cons_cons, Nat.add_zero]
      have harg : ((fun i => gen (k + i)) ∘ Nat.succ) = fun i => gen (k + 1 + i) := by
        funext i
        simp only [Function.comp]
        rw [Nat.add_succ, Nat.succ_add]
      rw [harg]
      simp

theorem validEmails_le_length (emails : List Str) :
    (validEmails emails).length ≤ emails.length := by
  unfold validEmails
  calc ((emails.map pyStrip).filter _).length ≤ (emails.map pyStrip).length :=
        List.length_filter_le _ _
    _ = emails.length := List.length_map _ _

theorem dispatch_spec (rd subject body : Str) (outcome : Nat → Bool) :
    ∀ (rs : List Recipient) (i : Nat),
      (dispatch rd subject body outcome i rs).1 =
        rs.map (fun r => send_one_email rd r.email subject body r.token) ∧
      (dispatch rd subject body outcome i rs).2.1 +
        (dispatch rd subject body outcome i rs).2.2 = rs.length := by
  intro rs
  induction rs with
  | nil => intro i; exact ⟨rfl, rfl⟩
  | cons r rest ih =>
    intro i
    obtain ⟨ih1, ih2⟩ := ih (i + 1)
    constructor
    · unfold dispatch
      simp only [List.map_cons]
      rw [ih1]
    · unfold dispatch
      by_cases ho : outcome i = true
      · simp only [ho, if_true, List.length_cons]
        omega
      · simp only [Bool.not_eq_true] at ho
        simp only [ho, Bool.false_eq_true, if_false, List.length_cons]
        omega

theorem hexChars_getD_ne (i : Nat) (h : i < 16) : hexChars.getD i '0' ≠ '@' := by
  have hl : i < hexChars.length := by
    rw [show hexChars.length = 16 from rfl]
    exact h
  rw [List.getD_eq_getElem _ _ hl]
  have hmem := List.getElem_mem hl
  have hno : '@' ∉ hexChars := by decide
  intro hEq
  exact hno (hEq ▸ hmem)

theorem at_not_mem_byteHex (b : Nat) : '@' ∉ byteHex b := by
  unfold byteHex
  intro hmem
  rcases List.mem_cons.mp hmem with h1 | hmem2
  · exact hexChars_getD_ne _ (Nat.mod_lt _ (by norm_num)) h1.symm
  · rcases List.mem_cons.mp hmem2 with h2 | h3
    · exact hexChars_getD_ne _ (Nat.mod_lt _ (by norm_num)) h2.symm
    · cases h3

theorem at_not_mem_create_token (bytes : List Nat) : '@' ∉ create_token bytes := by
  unfold create_token
  intro hmem
  rw [List.mem_flatten] at hmem
  obtain ⟨l, hl, hcl⟩ := hmem
  rw [List.mem_map] at hl
  obtain ⟨b, _, rfl⟩ := hl
  exact at_not_mem_byteHex b hcl

theorem takeWhile_until_at (t d : Str) (h : '@' ∉ t) :
    (t ++ '@' :: d).takeWhile (fun c => c != '@') = t := by
  induction t with
  | nil => simp [List.takeWhile_cons]
  | cons c t' ih =>
    have hc : c ≠ '@' := fun hEq => h (hEq ▸ List.mem_cons_self c t')
    have ht' : '@' ∉ t' := fun hm => h (List.mem_cons_of_mem c hm)
    simp only [List.cons_append, List.takeWhile_cons]
    simp only [show (c != '@') = true by simpa using hc, if_true]
    rw [ih ht']

theorem decode_encode (t d : Str) (h : '@' ∉ t) :
    decode_recipient (reply_address t d) = some t := by
  unfold decode_recipient reply_address encode_token
  rw [List.append_assoc]
  rw [if_pos ?side]
  case side =>
    constructor
    · exact List.isPrefixOf_iff_prefix.mpr (List.prefix_append _ _)
    · rw [List.mem_append]
      refine Or.inr ?_
      rw [List.mem_append]
      exact Or.inr (List.mem_cons_self _ _)
  rw [show (6 : Nat) = ("reply+".data).length from rfl, List.drop_left]
  rw [takeWhile_until_at t d h]

theorem decode_recipient_none_iff (r : Str) :
    decode_recipient r = none ↔ ¬ ("reply+".data <+: r ∧ '@' ∈ r) := by
  unfold decode_recipient
  split
  · rename_i hcond
    simp only [List.isPrefixOf_iff_prefix] at hcond
    simpa using hcond
  · rename_i hcond
    simp only [List.isPrefixOf_iff_prefix] at hcond
    simpa using hcond

/-- Claim C10: for every input string x, `clean_body (clean_body x) = clean_body x`,
and the sanitizer is total on arbitrary text including the empty input
(in particular it maps the empty string to the empty string). -/
theorem C10_sanitizer_idem (x : Str) :
    clean_body (clean_body x) = clean_body x ∧ clean_body [] = [] :=
  ⟨clean_body_idem x, by decide⟩

/-- Claim C9: decoding the address formed by joining `"reply+" ++ t` with any
domain returns the token t, for every token produced by `create_token`;
an address not of the shape `reply+<token>@<anything>` decodes to none
(in particular `"not-a-reply@x"`); and `"reply+@x"` decodes to the
empty-string token without crashing. -/
theorem C9_codec_roundtrip :
    (∀ (bytes : List Nat) (d : Str),
      decode_recipient (reply_address (create_token bytes) d) = some (create_token bytes)) ∧
    (∀ r : Str, decode_recipient r = none ↔ ¬ ("reply+".data <+: r ∧ '@' ∈ r)) ∧
    decode_recipient "not-a-reply@x".data = none ∧
    decode_recipient "reply+@x".data = some [] := by
  refine ⟨?_, ?_, ?_, ?_⟩
  · intro bytes d
    exact decode_encode _ d (at_not_mem_create_token bytes)
  · exact decode_recipient_none_iff
  · decide
  · decide

/-- Claim C3: on a campaign whose status is `"sent"`, the content-set,
audience-upload and send operations are each rejected with the 400
`"campaign already sent"` conflict response, and the whole state — campaign
fields, recipient rows and token rows — is returned unchanged (the content-set
case assumes the request itself carries non-empty subject and body, since an
empty one is rejected earlier as invalid input). -/
theorem C3_sent_rejects (db : DB) (cid : Nat) (camp : Campaign) (s b : Str)
    (emails : List Str) (gen : Nat → Str) (rd : Str) (outcome : Nat → Bool)
    (hc : get_campaign db cid = some camp) (hs : camp.status = "sent".data)
    (hsub : pyStrip s ≠ []) (hbody : pyStrip b ≠ []) :
    set_campaign_content db cid s b = (db, .error ⟨"campaign already sent".data, 400⟩) ∧
    upload_emails db cid emails gen = (db, .error ⟨"campaign already sent".data, 400⟩) ∧
    send_campaign db cid rd outcome = (db, [], .error ⟨"campaign already sent".data, 400⟩) := by
  refine ⟨?_, ?_, ?_⟩
  · unfold set_campaign_content
    rw [if_neg (by push_neg; exact ⟨hsub, hbody⟩)]
    rw [hc]
    show contentBody db cid camp s b = _
    unfold contentBody
    exact if_pos hs
  · unfold upload_emails
    rw [hc]
    show uploadBody db cid camp emails gen = _
    unfold uploadBody
    exact if_pos hs
  · unfold send_campaign
    rw [hc]
    show sendBody db cid camp rd outcome = _
    unfold sendBody
    exact if_pos hs

/-- Witness for C3 at a concrete sent campaign. -/
theorem C3_sent_rejects_witness :
    set_campaign_content dbSent 0 "S2".data "B2".data =
      (dbSent, .error ⟨"campaign already sent".data, 400⟩) :=
  (C3_sent_rejects dbSent 0 ⟨"Q1".data, "sent".data, some "Hi".data, some "Hello".data, 1⟩
    "S2".data "B2".data ["b@x".data] (fun _ => "t1".data)
    "mg.x".data (fun _ => true) (by decide) rfl (by decide) (by decide)).1

theorem uploadPairs_length (gen : Nat → Str) (emails : List Str) :
    (uploadPairs gen emails).length = (validEmails emails).length := by
  unfold uploadPairs
  rw [List.length_zip, List.length_map, List.length_range]
  exact Nat.min_self _

theorem uploadLoop_zero (gen : Nat → Str) (emails : List Str) :
    uploadLoop gen 0 emails = uploadPairs gen emails := by
  rw [uploadLoop_eq gen emails 0]
  unfold uploadPairs
  simp [Nat.zero_add]

/-- Characterization of a successful `upload_emails` call: prior recipient and
token rows of the campaign are deleted, one fresh token row and one recipient
row are inserted per valid entry, the count and the full map are returned, and
the status is derived from content presence and the new count. -/
theorem upload_success (db : DB) (cid : Nat) (camp : Campaign) (emails : List Str)
    (gen : Nat → Str) (hc : get_campaign db cid = some camp)
    (hns : camp.status ≠ "sent".data) (hne : emails ≠ []) (hlen : emails.length ≤ 1000) :
    upload_emails db cid emails gen =
      (updateCampaign
        { db with
          recipients := db.recipients.filter (fun r => r.campaign_id != cid)
            ++ (uploadPairs gen emails).map (fun p => ⟨cid, p.2, p.1⟩),
          campaign_tokens := db.campaign_tokens.filter (fun t => t.campaign_id != cid)
            ++ (uploadPairs gen emails).map (fun p => ⟨p.2, cid⟩) }
        cid
        (fun c => { c with
          recipient_count := (validEmails emails).length,
          status := uploadNextStatus camp (validEmails emails).length }),
        .ok ⟨cid, (validEmails emails).length,
          uploadNextStatus camp (validEmails emails).length, uploadPairs gen emails⟩) := by
  unfold upload_emails
  rw [hc]
  show uploadBody db cid camp emails gen = _
  unfold uploadBody
  rw [if_neg hns, if_neg hne, if_neg (by omega)]
  rw [uploadLoop_zero, uploadPairs_length]

/-- Claim C5: a successful upload on a non-sent campaign trims each entry,
silently drops entries that are empty or lack '@', deletes all prior recipient
and token rows of the campaign, inserts exactly one fresh token row and one
recipient row per remaining valid entry, returns the count of valid entries
with the full email-token map, and sets the status to `audience` when content
is set and the count is nonzero, `ready` when content is set and the count is
zero, and `draft` when content is unset. -/
theorem C5_upload_replace (db : DB) (cid : Nat) (camp : Campaign) (emails : List Str)
    (gen : Nat → Str) (hc : get_campaign db cid = some camp)
    (hns : camp.status ≠ "sent".data) (hne : emails ≠ []) (hlen : emails.length ≤ 1000) :
    upload_emails db cid emails gen =
      (updateCampaign
        { db with
          recipients := db.recipients.filter (fun r => r.campaign_id != cid)
            ++ (uploadPairs gen emails).map (fun p => ⟨cid, p.2, p.1⟩),
          campaign_tokens := db.campaign_tokens.filter (fun t => t.campaign_id != cid)
            ++ (uploadPairs gen emails).map (fun p => ⟨p.2, cid⟩) }
        cid
        (fun c => { c with
          recipient_count := (validEmails emails).length,
          status := uploadNextStatus camp (validEmails emails).length }),
        .ok ⟨cid, (validEmails emails).length,
          uploadNextStatus camp (validEmails emails).length, uploadPairs gen emails⟩) ∧
    validEmails emails = (emails.map pyStrip).filter (fun e => decide (e ≠ [] ∧ '@' ∈ e)) ∧
    uploadNextStatus camp (validEmails emails).length =
      (if pyStrip (camp.subject.getD []) ≠ [] ∧ 0 < (validEmails emails).length
        then "audience".data
        else if ¬ (pyStrip (camp.subject.getD []) ≠ []) then "draft".data
        else "ready".data) :=
  ⟨upload_success db cid camp emails gen hc hns hne hlen, rfl, rfl⟩

/-- Witness for C5: a concrete upload of two valid and one invalid entry. -/
theorem C5_upload_replace_witness :
    (upload_emails dbReady 0 [" a@x ".data, "bad".data, "b@x".data]
        (fun i => [Char.ofNat (97 + i)])).2 =
      .ok ⟨0, 2, "audience".data, [("a@x".data, "a".data), ("b@x".data, "b".data)]⟩ :=
  by
  have h := (C5_upload_replace dbReady 0
    ⟨"Q1".data, "ready".data, some "Hi".data, some "Hello".data, 0⟩
    [" a@x ".data, "bad".data, "b@x".data] (fun i => [Char.ofNat (97 + i)])
    (by decide) (by decide) (by decide) (by decide)).1
  rw [h]
  rfl

/-- Claim C1 counterexample: `create_token` is a single unconditional draw —
the upload loop performs no collision retry against the token registry, so
when the entropy source repeats a value (two identical `os.urandom` draws),
one audience-replace call with two valid addresses succeeds and issues two
equal tokens, falsifying pairwise distinctness. -/
theorem C1_counterexample :
    (upload_emails dbReady 0 ["a@x".data, "b@x".data] (fun _ => "tok".data)).2 =
      .ok ⟨0, 2, "audience".data, [("a@x".data, "tok".data), ("b@x".data, "tok".data)]⟩ ∧
    ¬ (([("a@x".data, "tok".data), ("b@x".data, "tok".data)] :
        List (Str × Str)).map Prod.snd).Nodup :=
  ⟨rfl, by decide⟩

/-- Claim C1, amended: token generation during an audience replace performs
no retry — a successful upload consumes exactly one generated value per valid
address (token i of the map is the i-th generator output), and the issued
tokens are pairwise distinct exactly when those generator outputs are
distinct on the consumed range. -/
theorem C1_no_retry (db : DB) (cid : Nat) (camp : Campaign) (emails : List Str)
    (gen : Nat → Str) (hc : get_campaign db cid = some camp)
    (hns : camp.status ≠ "sent".data) (hne : emails ≠ []) (hlen : emails.length ≤ 1000) :
    ∃ u : UploadOk, (upload_emails db cid emails gen).2 = .ok u ∧
      u.map.map Prod.snd = (List.range (validEmails emails).length).map gen ∧
      ((∀ i j, i < (validEmails emails).length → j < (validEmails emails).length →
          gen i = gen j → i = j) →
        (u.map.map Prod.snd).Nodup) := by
  have h := upload_success db cid camp emails gen hc hns hne hlen
  have hsnd : (uploadPairs gen emails).map Prod.snd =
      (List.range (validEmails emails).length).map gen := by
    unfold uploadPairs
    exact List.map_snd_zip _ _ (by rw [List.length_map, List.length_range])
  refine ⟨⟨cid, (validEmails emails).length,
    uploadNextStatus camp (validEmails emails).length, uploadPairs gen emails⟩, ?_, ?_, ?_⟩
  · rw [h]
  · exact hsnd
  · intro hinj
    rw [hsnd]
    refine List.Nodup.map_on ?_ (List.nodup_range _)
    intro i hi j hj hEq
    exact hinj i j (List.mem_range.mp hi) (List.mem_range.mp hj) hEq

/-- Witness for C1 (amended) at a concrete upload with injective entropy. -/
theorem C1_no_retry_witness :
    ∃ u : UploadOk,
      (upload_emails dbReady 0 ["a@x".data, "b@x".data]
        (fun i => [Char.ofNat (97 + i)])).2 = .ok u ∧
      u.map.map Prod.snd =
        (List.range (validEmails ["a@x".data, "b@x".data]).length).map
          (fun i => [Char.ofNat (97 + i)]) ∧
      ((∀ i j, i < (validEmails ["a@x".data, "b@x".data]).length →
          j < (validEmails ["a@x".data, "b@x".data]).length →
          ([Char.ofNat (97 + i)] : Str) = [Char.ofNat (97 + j)] → i = j) →
        (u.map.map Prod.snd).Nodup) :=
  C1_no_retry dbReady 0 ⟨"Q1".data, "ready".data, some "Hi".data, some "Hello".data, 0⟩
    ["a@x".data, "b@x".data] (fun i => [Char.ofNat (97 + i)])
    (by decide) (by decide) (by decide) (by decide)

/-- Claim C4: `send_campaign` on a non-sent campaign with non-empty subject
and body and at least one recipient row attempts exactly one transport send
per recipient (in order, with the campaign's stripped subject/body and the
recipient's token-derived Reply-To), counts a per-recipient transport failure
as failed without aborting the batch, returns counts summing to the number of
recipients, and unconditionally marks the campaign `sent` — even when every
transport call fails.  With unset content or no recipient row the call is
rejected with 400 and no send is attempted. -/
theorem C4_send_best_effort (db : DB) (cid : Nat) (camp : Campaign) (rd : Str)
    (outcome : Nat → Bool)
    (hc : get_campaign db cid = some camp) (hns : camp.status ≠ "sent".data) :
    (pyStrip (camp.subject.getD []) ≠ [] → pyStrip (camp.body.getD []) ≠ [] →
      campRecipients db cid ≠ [] →
      send_campaign db cid rd outcome =
        (updateCampaign db cid (fun c => { c with status := "sent".data }),
          (sendDispatch db cid camp rd outcome).1,
          .ok ⟨cid, (sendDispatch db cid camp rd outcome).2.1,
            (sendDispatch db cid camp rd outcome).2.2, "sent".data⟩) ∧
      (sendDispatch db cid camp rd outcome).1 =
        (campRecipients db cid).map (fun r => send_one_email rd r.email
          (pyStrip (camp.subject.getD [])) (pyStrip (camp.body.getD [])) r.token) ∧
      (sendDispatch db cid camp rd outcome).2.1 + (sendDispatch db cid camp rd outcome).2.2 =
        (campRecipients db cid).length ∧
      statusOf (send_campaign db cid rd outcome).1 cid = some "sent".data) ∧
    (pyStrip (camp.subject.getD []) = [] ∨ pyStrip (camp.body.getD []) = [] →
      send_campaign db cid rd outcome =
        (db, [], .error ⟨"campaign content not set".data, 400⟩)) ∧
    (pyStrip (camp.subject.getD []) ≠ [] → pyStrip (camp.body.getD []) ≠ [] →
      campRecipients db cid = [] →
      send_campaign db cid rd outcome =
        (db, [], .error ⟨"no recipients uploaded".data, 400⟩)) := by
  have hbody : send_campaign db cid rd outcome = sendBody db cid camp rd outcome := by
    unfold send_campaign
    rw [hc]
  refine ⟨?_, ?_, ?_⟩
  · intro hsub hbod hrec
    have hmain : send_campaign db cid rd outcome =
        (updateCampaign db cid (fun c => { c with status := "sent".data }),
          (sendDispatch db cid camp rd outcome).1,
          .ok ⟨cid, (sendDispatch db cid camp rd outcome).2.1,
            (sendDispatch db cid camp rd outcome).2.2, "sent".data⟩) := by
      rw [hbody]
      unfold sendBody
      rw [if_neg hns, if_neg (by push_neg; exact ⟨hsub, hbod⟩), if_neg hrec]
    obtain ⟨hatt, hcount⟩ := dispatch_spec rd (pyStrip (camp.subject.getD []))
      (pyStrip (camp.body.getD [])) outcome (campRecipients db cid) 0
    refine ⟨hmain, hatt, hcount, ?_⟩
    rw [hmain]
    unfold statusOf get_campaign updateCampaign
    dsimp only
    rw [findCamp_update_self]
    rw [show findCamp db.campaigns cid = some camp from hc]
    rfl
  · intro hcont
    rw [hbody]
    unfold sendBody
    rw [if_neg hns, if_pos hcont]
  · intro hsub hbod hrec
    rw [hbody]
    unfold sendBody
    rw [if_neg hns, if_neg (by push_neg; exact ⟨hsub, hbod⟩), if_pos hrec]

/-- Witness for C4 at a concrete campaign whose single transport call fails:
the batch completes, counts are 0 sent / 1 failed, status still becomes sent. -/
theorem C4_send_best_effort_witness :
    send_campaign dbAud 0 "mg.x".data (fun _ => false) =
      (updateCampaign dbAud 0 (fun c => { c with status := "sent".data }),
        (sendDispatch dbAud 0
          ⟨"Q1".data, "audience".data, some "Hi".data, some "Hello".data, 1⟩
          "mg.x".data (fun _ => false)).1,
        .ok ⟨0,
          (sendDispatch dbAud 0
            ⟨"Q1".data, "audience".data, some "Hi".data, some "Hello".data, 1⟩
            "mg.x".data (fun _ => false)).2.1,
          (sendDispatch dbAud 0
            ⟨"Q1".data, "audience".data, some "Hi".data, some "Hello".data, 1⟩
            "mg.x".data (fun _ => false)).2.2, "sent".data⟩) ∧
    (sendDispatch dbAud 0
      ⟨"Q1".data, "audience".data, some "Hi".data, some "Hello".data, 1⟩
      "mg.x".data (fun _ => false)).2.1 = 0 ∧
    (sendDispatch dbAud 0
      ⟨"Q1".data, "audience".data, some "Hi".data, some "Hello".data, 1⟩
      "mg.x".data (fun _ => false)).2.2 = 1 ∧
    statusOf (send_campaign dbAud 0 "mg.x".data (fun _ => false)).1 0 = some "sent".data := by
  have h := C4_send_best_effort dbAud 0
    ⟨"Q1".data, "audience".data, some "Hi".data, some "Hello".data, 1⟩
    "mg.x".data (fun _ => false) (by decide) (by decide)
  obtain ⟨hmain, _, _, hstat⟩ := h.1 (by decide) (by decide) (by decide)
  exact ⟨hmain, by decide, by decide, hstat⟩

/-- Claim C6: two ingestion calls with the same provider message id (all
required fields present) store exactly one Reply, keeping the first call's
(sanitized) body; the duplicate is acknowledged with 200 OK and changes
nothing. -/
theorem C6_dedup (db : DB) (r1 r2 : Str) (s1 s2 : Option Str) (b1 b2 mid : Str)
    (hv1 : (falsyOpt (decode_recipient r1) || falsyOpt (some b1) || falsyOpt (some mid)) = false)
    (hv2 : (falsyOpt (decode_recipient r2) || falsyOpt (some b2) || falsyOpt (some mid)) = false)
    (hnd : db.replies.find? (fun rp => rp.message_id == mid) = none) :
    mailgun_webhook_f db r1 s1 (some b1) (some mid) noFail =
      .ok (webhookInsert db r1 s1 b1 mid, okResp) ∧
    mailgun_webhook_f (webhookInsert db r1 s1 b1 mid) r2 s2 (some b2) (some mid) noFail =
      .ok (webhookInsert db r1 s1 b1 mid, okResp) ∧
    (webhookInsert db r1 s1 b1 mid).replies.filter (fun rp => rp.message_id == mid) =
      [⟨(decode_recipient r1).getD [],
        (db.campaign_tokens.find? (fun tr => tr.token == (decode_recipient r1).getD [])).map
          TokenRow.campaign_id, s1, clean_body b1, mid⟩] := by
  have hfilter : db.replies.filter (fun rp => rp.message_id == mid) = [] := by
    rw [List.filter_eq_nil_iff]
    exact List.find?_eq_none.mp hnd
  refine ⟨?_, ?_, ?_⟩
  · unfold mailgun_webhook_f
    rw [if_neg (by simp [hv1]), if_neg (by decide)]
    rw [Option.getD_some, Option.getD_some]
    rw [hnd]
    rw [if_neg (by simp), if_neg (by decide), if_neg (by decide)]
    rfl
  · unfold mailgun_webhook_f
    rw [if_neg (by simp [hv2]), if_neg (by decide)]
    rw [Option.getD_some]
    have hdup : (((webhookInsert db r1 s1 b1 mid).replies.find?
        (fun rp => rp.message_id == mid)).isSome) = true := by
      unfold webhookInsert
      dsimp only
      rw [List.find?_append, hnd]
      simp
    rw [if_pos hdup]
  · unfold webhookInsert
    dsimp only
    rw [List.filter_append, hfilter]
    simp

/-- Witness for C6: the same message id posted twice against an empty store. -/
theorem C6_dedup_witness :
    mailgun_webhook_f DB.empty "reply+aa11@x".data none (some "first".data)
      (some "m1".data) noFail =
      .ok (webhookInsert DB.empty "reply+aa11@x".data none "first".data "m1".data, okResp) ∧
    mailgun_webhook_f (webhookInsert DB.empty "reply+aa11@x".data none "first".data "m1".data)
      "reply+aa11@x".data none (some "second".data) (some "m1".data) noFail =
      .ok (webhookInsert DB.empty "reply+aa11@x".data none "first".data "m1".data, okResp) ∧
    (webhookInsert DB.empty "reply+aa11@x".data none "first".data "m1".data).replies.filter
        (fun rp => rp.message_id == "m1".data) =
      [⟨(decode_recipient "reply+aa11@x".data).getD [],
        (DB.empty.campaign_tokens.find? (fun tr =>
          tr.token == (decode_recipient "reply+aa11@x".data).getD [])).map
          TokenRow.campaign_id, none, clean_body "first".data, "m1".data⟩] :=
  C6_dedup DB.empty "reply+aa11@x".data "reply+aa11@x".data none none
    "first".data "second".data "m1".data (by decide) (by decide) (by decide)

/-- Claim C7 counterexample: the webhook handler has no try/except around its
storage calls, so a raising dedup lookup propagates out of the route (a 500 at
the Flask boundary) — the call does not resolve to a 200 "OK"
acknowledgment. -/
theorem C7_counterexample :
    mailgun_webhook_f DB.empty "reply+abcd@x".data none (some "hi".data) (some "m1".data)
      ⟨true, false, false⟩ = .error () := rfl

/-- Claim C7, amended: every POST to the webhook whose storage operations
succeed returns 200 "OK" — all validation, deduplication and unknown-token
paths acknowledge success; an internal storage error, however, escapes the
handler as an exception instead of resolving to a 200. -/
theorem C7_webhook_always_ok (db : DB) (r : Str) (s b m : Option Str) :
    ∃ db' : DB, mailgun_webhook_f db r s b m noFail = .ok (db', okResp) := by
  unfold mailgun_webhook_f
  by_cases h1 : (falsyOpt (decode_recipient r) || falsyOpt b || falsyOpt m) = true
  · exact ⟨db, by rw [if_pos h1]⟩
  · rw [if_neg h1, if_neg (by decide)]
    by_cases h2 : ((db.replies.find? (fun rp => rp.message_id == m.getD [])).isSome) = true
    · exact ⟨db, by rw [if_pos h2]⟩
    · rw [if_neg h2, if_neg (by decide), if_neg (by decide)]
      exact ⟨_, rfl⟩

/-- Claim C8: a notification missing a provider message id, a plain-text
body, or a (non-empty) decodable token is accepted with 200 OK and dropped
without storing a Reply; a valid notification whose token resolves to no
campaign stores a Reply with a null campaign id and the sanitized body — and
the sanitizer maps "Reply text\nOn Mon, wrote:\nquoted" to "Reply text". -/
theorem C8_webhook_paths (db : DB) (r : Str) (s b m : Option Str) :
    ((falsyOpt (decode_recipient r) || falsyOpt b || falsyOpt m) = true →
      mailgun_webhook_f db r s b m noFail = .ok (db, okResp)) ∧
    ((falsyOpt (decode_recipient r) || falsyOpt b || falsyOpt m) = false →
      db.replies.find? (fun rp => rp.message_id == m.getD []) = none →
      db.campaign_tokens.find? (fun tr => tr.token == (decode_recipient r).getD []) = none →
      mailgun_webhook_f db r s b m noFail =
        .ok ({ db with replies := db.replies ++
          [⟨(decode_recipient r).getD [], none, s, clean_body (b.getD []), m.getD []⟩] },
          okResp)) ∧
    clean_body "Reply text\nOn Mon, wrote:\nquoted".data = "Reply text".data := by
  refine ⟨?_, ?_, by decide⟩
  · intro h
    unfold mailgun_webhook_f
    rw [if_pos h]
  · intro hval hnd hunk
    unfold mailgun_webhook_f
    rw [if_neg (by simp [hval]), if_neg (by decide)]
    rw [hnd]
    rw [if_neg (by simp), if_neg (by decide), if_neg (by decide)]
    rw [hunk]
    rfl

/-- Witness for C8: a shapeless recipient is dropped; an unknown token stores
an unattributed, sanitized Reply. -/
theorem C8_webhook_paths_witness :
    mailgun_webhook_f DB.empty "not-a-reply@x".data none (some "hi".data)
      (some "m1".data) noFail = .ok (DB.empty, okResp) ∧
    mailgun_webhook_f DB.empty "reply+abcd1234@mg.x.com".data none
      (some "Reply text\nOn Mon, wrote:\nquoted".data) (some "m1".data) noFail =
      .ok ({ DB.empty with replies :=
        [⟨"abcd1234".data, none, none, "Reply text".data, "m1".data⟩] }, okResp) := by
  constructor
  · exact (C8_webhook_paths DB.empty "not-a-reply@x".data none (some "hi".data)
      (some "m1".data)).1 (by decide)
  · have h := (C8_webhook_paths DB.empty "reply+abcd1234@mg.x.com".data none
      (some "Reply text\nOn Mon, wrote:\nquoted".data) (some "m1".data)).2.1
      (by decide) rfl rfl
    rw [h]
    rfl

/-- Claim C2 counterexample: content is set, one valid address is uploaded
(status `audience`), then a second upload whose only entry is invalid
succeeds with count 0 and moves the status backward to `ready`. -/
theorem C2_counterexample :
    statusOf (upload_emails
      (set_campaign_content (create_campaign DB.empty "Q1".data).1 0
        "Hi".data "Hello there".data).1 0 ["a@x".data] (fun _ => "t0".data)).1 0 =
      some "audience".data ∧
    statusOf (upload_emails
      (upload_emails
        (set_campaign_content (create_campaign DB.empty "Q1".data).1 0
          "Hi".data "Hello there".data).1 0 ["a@x".data] (fun _ => "t0".data)).1
      0 ["bad".data] (fun _ => "t1".data)).1 0 = some "ready".data ∧
    rank "ready".data < rank "audience".data := by decide

theorem webhook_preserves_campaigns (db : DB) (r : Str) (s b m : Option Str)
    (p : DB × HttpResp) (h : mailgun_webhook_f db r s b m noFail = .ok p) :
    p.1.campaigns = db.campaigns := by
  unfold mailgun_webhook_f at h
  by_cases h1 : (falsyOpt (decode_recipient r) || falsyOpt b || falsyOpt m) = true
  · rw [if_pos h1] at h
    injection h with h2
    rw [← h2]
  · rw [if_neg h1, if_neg (by decide)] at h
    by_cases h2 : ((db.replies.find? (fun rp => rp.message_id == m.getD [])).isSome) = true
    · rw [if_pos h2] at h
      injection h with h3
      rw [← h3]
    · rw [if_neg h2, if_neg (by decide), if_neg (by decide)] at h
      injection h with h3
      rw [← h3]

theorem create_preserves (db : DB) (cid : Nat) (nm : Str) (c : Campaign)
    (hc : get_campaign db cid = some c) :
    get_campaign (applyOp db (.createOp nm)) cid = some c := by
  show get_campaign ((create_campaign db nm).1) cid = some c
  unfold create_campaign
  by_cases hn : pyStrip nm = []
  · rw [if_pos hn]
    exact hc
  · rw [if_neg hn]
    exact findCamp_append _ _ _ _ hc

theorem ingest_preserves (db : DB) (cid : Nat) (r : Str) (s b m : Option Str) (c : Campaign)
    (hc : get_campaign db cid = some c) :
    get_campaign (applyOp db (.ingestOp r s b m)) cid = some c := by
  show get_campaign (match mailgun_webhook_f db r s b m noFail with
    | .ok p => p.1
    | .error _ => db) cid = some c
  rcases hw : mailgun_webhook_f db r s b m noFail with e | p
  · exact hc
  · have := webhook_preserves_campaigns db r s b m p hw
    unfold get_campaign
    rw [this]
    exact hc

theorem applyOp_create (db : DB) (nm : Str) :
    applyOp db (.createOp nm) = (create_campaign db nm).1 := rfl

theorem applyOp_content (db : DB) (tid : Nat) (s b : Str) :
    applyOp db (.contentOp tid s b) = (set_campaign_content db tid s b).1 := rfl

theorem applyOp_upload (db : DB) (tid : Nat) (es : List Str) (gen : Nat → Str) :
    applyOp db (.uploadOp tid es gen) = (upload_emails db tid es gen).1 := rfl

theorem applyOp_send (db : DB) (tid : Nat) (rd : Str) (oc : Nat → Bool) :
    applyOp db (.sendOp tid rd oc) = (send_campaign db tid rd oc).1 := rfl

theorem rank_le_three (s : Str) : rank s ≤ 3 := by
  unfold rank
  split_ifs <;> omega

theorem content_other (db : DB) (tid cid : Nat) (s b : Str) (h : tid ≠ cid) :
    get_campaign ((set_campaign_content db tid s b).1) cid = get_campaign db cid := by
  unfold set_campaign_content
  by_cases hv : pyStrip s = [] ∨ pyStrip b = []
  · rw [if_pos hv]
  · rw [if_neg hv]
    cases hg : get_campaign db tid with
    | none => rfl
    | some camp =>
      show get_campaign ((contentBody db tid camp s b).1) cid = _
      unfold contentBody
      by_cases hsent : camp.status = "sent".data
      · rw [if_pos hsent]
      · rw [if_neg hsent]
        show get_campaign (updateCampaign db tid _) cid = _
        unfold get_campaign updateCampaign
        dsimp only
        exact findCamp_update_ne _ _ _ _ h

theorem upload_other (db : DB) (tid cid : Nat) (es : List Str) (gen : Nat → Str)
    (h : tid ≠ cid) :
    get_campaign ((upload_emails db tid es gen).1) cid = get_campaign db cid := by
  unfold upload_emails
  cases hg : get_campaign db tid with
  | none => rfl
  | some camp =>
    show get_campaign ((uploadBody db tid camp es gen).1) cid = _
    unfold uploadBody
    by_cases h1 : camp.status = "sent".data
    · rw [if_pos h1]
    · rw [if_neg h1]
      by_cases h2 : es = []
      · rw [if_pos h2]
      · rw [if_neg h2]
        by_cases h3 : 1000 < es.length
        · rw [if_pos h3]
        · rw [if_neg h3]
          show get_campaign (updateCampaign _ tid _) cid = _
          unfold get_campaign updateCampaign
          dsimp only
          exact findCamp_update_ne _ _ _ _ h

theorem send_other (db : DB) (tid cid : Nat) (rd : Str) (oc : Nat → Bool)
    (h : tid ≠ cid) :
    get_campaign ((send_campaign db tid rd oc).1) cid = get_campaign db cid := by
  unfold send_campaign
  cases hg : get_campaign db tid with
  | none => rfl
  | some camp =>
    show get_campaign ((sendBody db tid camp rd oc).1) cid = _
    unfold sendBody
    by_cases h1 : camp.status = "sent".data
    · rw [if_pos h1]
    · rw [if_neg h1]
      by_cases h2 : pyStrip (camp.subject.getD []) = [] ∨ pyStrip (camp.body.getD []) = []
      · rw [if_pos h2]
      · rw [if_neg h2]
        by_cases h3 : campRecipients db tid = []
        · rw [if_pos h3]
        · rw [if_neg h3]
          show get_campaign (updateCampaign db tid _) cid = _
          unfold get_campaign updateCampaign
          dsimp only
          exact findCamp_update_ne _ _ _ _ h

theorem content_self (db : DB) (cid : Nat) (c : Campaign) (s b : Str)
    (hc : get_campaign db cid = some c) (hns : c.status ≠ "sent".data)
    (hs : pyStrip s ≠ []) (hb : pyStrip b ≠ []) :
    get_campaign ((set_campaign_content db cid s b).1) cid =
      some { c with
        subject := some (pyStrip s), body := some (pyStrip b),
        status := if 0 < c.recipient_count then "audience".data else "ready".data } := by
  unfold set_campaign_content
  rw [if_neg (by push_neg; exact ⟨hs, hb⟩), hc]
  show get_campaign ((contentBody db cid c s b).1) cid = _
  unfold contentBody
  rw [if_neg hns]
  show get_campaign (updateCampaign db cid _) cid = _
  unfold get_campaign updateCampaign
  dsimp only
  rw [findCamp_update_self]
  rw [show findCamp db.campaigns cid = some c from hc]
  rfl

theorem upload_self (db : DB) (cid : Nat) (c : Campaign) (es : List Str) (gen : Nat → Str)
    (hc : get_campaign db cid = some c) (hns : c.status ≠ "sent".data)
    (hne : es ≠ []) (hlen : ¬ 1000 < es.length) :
    get_campaign ((upload_emails db cid es gen).1) cid =
      some { c with
        recipient_count := (uploadLoop gen 0 es).length,
        status := uploadNextStatus c (uploadLoop gen 0 es).length } := by
  unfold upload_emails
  rw [hc]
  show get_campaign ((uploadBody db cid c es gen).1) cid = _
  unfold uploadBody
  rw [if_neg hns, if_neg hne, if_neg hlen]
  show get_campaign (updateCampaign _ cid _) cid = _
  unfold get_campaign updateCampaign
  dsimp only
  rw [findCamp_update_self]
  rw [show findCamp db.campaigns cid = some c from hc]
  rfl

theorem send_self (db : DB) (cid : Nat) (c : Campaign) (rd : Str) (oc : Nat → Bool)
    (hc : get_campaign db cid = some c) (hns : c.status ≠ "sent".data)
    (hcont : ¬ (pyStrip (c.subject.getD []) = [] ∨ pyStrip (c.body.getD []) = []))
    (hrec : campRecipients db cid ≠ []) :
    get_campaign ((send_campaign db cid rd oc).1) cid =
      some { c with status := "sent".data } := by
  unfold send_campaign
  rw [hc]
  show get_campaign ((sendBody db cid c rd oc).1) cid = _
  unfold sendBody
  rw [if_neg hns, if_neg hcont, if_neg hrec]
  show get_campaign (updateCampaign db cid _) cid = _
  unfold get_campaign updateCampaign
  dsimp only
  rw [findCamp_update_self]
  rw [show findCamp db.campaigns cid = some c from hc]
  rfl

/-- Claim C2, amended: from any state satisfying the reachable-campaign
invariant (which holds for a freshly created campaign), every operation
preserves the invariant, and the campaign's status never moves backward along
draft < ready < audience < sent — except that an audience-upload whose valid
entry count is zero moves `audience` back to `ready`.  In particular no
operation ever leaves `sent`. -/
theorem C2_transitions (db : DB) (cid : Nat) (op : Op) (h : CampInv db cid) :
    CampInv (applyOp db op) cid ∧
    (rank ((statusOf db cid).getD []) ≤ rank ((statusOf (applyOp db op) cid).getD []) ∨
      ((∃ tid es gen, op = Op.uploadOp tid es gen) ∧
        statusOf db cid = some "audience".data ∧
        statusOf (applyOp db op) cid = some "ready".data)) := by
  obtain ⟨c, hc, hst4, hdraft, hcont, haud⟩ := h
  have hstat : statusOf db cid = some c.status := by
    unfold statusOf
    rw [hc]
    rfl
  cases op with
  | createOp nm =>
    have hget := create_preserves db cid nm c hc
    have hstat2 : statusOf (applyOp db (.createOp nm)) cid = some c.status := by
      unfold statusOf
      rw [hget]
      rfl
    exact ⟨⟨c, hget, hst4, hdraft, hcont, haud⟩, Or.inl (by rw [hstat, hstat2])⟩
  | ingestOp r s b m =>
    have hget := ingest_preserves db cid r s b m c hc
    have hstat2 : statusOf (applyOp db (.ingestOp r s b m)) cid = some c.status := by
      unfold statusOf
      rw [hget]
      rfl
    exact ⟨⟨c, hget, hst4, hdraft, hcont, haud⟩, Or.inl (by rw [hstat, hstat2])⟩
  | contentOp tid s b =>
    rw [applyOp_content]
    by_cases htid : tid = cid
    · subst htid
      by_cases hv : pyStrip s = [] ∨ pyStrip b = []
      · have hdb : (set_campaign_content db tid s b).1 = db := by
          unfold set_campaign_content
          rw [if_pos hv]
        rw [hdb]
        exact ⟨⟨c, hc, hst4, hdraft, hcont, haud⟩, Or.inl le_rfl⟩
      · push_neg at hv
        obtain ⟨hs, hb⟩ := hv
        by_cases hsent : c.status = "sent".data
        · have hdb : (set_campaign_content db tid s b).1 = db := by
            unfold set_campaign_content
            rw [if_neg (by push_neg; exact ⟨hs, hb⟩), hc]
            show (contentBody db tid c s b).1 = db
            unfold contentBody
            rw [if_pos hsent]
          rw [hdb]
          exact ⟨⟨c, hc, hst4, hdraft, hcont, haud⟩, Or.inl le_rfl⟩
        · have hget := content_self db tid c s b hc hsent hs hb
          by_cases hcnt : 0 < c.recipient_count
          · rw [if_pos hcnt] at hget
            have hstat2 : statusOf ((set_campaign_content db tid s b).1) tid =
                some "audience".data := by
              unfold statusOf
              rw [hget]
              rfl
            refine ⟨⟨_, hget, Or.inr (Or.inr (Or.inl rfl)),
              fun hx => absurd (show ("audience".data : Str) = "draft".data from hx) (by decide),
              fun _ => ?_, fun _ => hcnt⟩, Or.inl ?_⟩
            · show pyStrip ((some (pyStrip s)).getD []) ≠ []
              rw [Option.getD_some, pyStrip_idem]
              exact hs
            · rw [hstat, hstat2]
              simp only [Option.getD_some]
              rcases hst4 with h4 | h4 | h4 | h4
              · rw [h4]; decide
              · rw [h4]; decide
              · rw [h4]
              · exact absurd h4 hsent
          · rw [if_neg hcnt] at hget
            have hstat2 : statusOf ((set_campaign_content db tid s b).1) tid =
                some "ready".data := by
              unfold statusOf
              rw [hget]
              rfl
            refine ⟨⟨_, hget, Or.inr (Or.inl rfl),
              fun hx => absurd (show ("ready".data : Str) = "draft".data from hx) (by decide),
              fun _ => ?_,
              fun hx => absurd (show ("ready".data : Str) = "audience".data from hx)
                (by decide)⟩, Or.inl ?_⟩
            · show pyStrip ((some (pyStrip s)).getD []) ≠ []
              rw [Option.getD_some, pyStrip_idem]
              exact hs
            · rw [hstat, hstat2]
              simp only [Option.getD_some]
              rcases hst4 with h4 | h4 | h4 | h4
              · rw [h4]; decide
              · rw [h4]
              · exact absurd (haud h4) hcnt
              · exact absurd h4 hsent
    · have hg := content_other db tid cid s b htid
      have hstat2 : statusOf ((set_campaign_content db tid s b).1) cid = some c.status := by
        unfold statusOf
        rw [hg, hc]
        rfl
      refine ⟨⟨c, ?_, hst4, hdraft, hcont, haud⟩, Or.inl (by rw [hstat, hstat2])⟩
      rw [hg]
      exact hc
  | sendOp tid rd oc =>
    rw [applyOp_send]
    by_cases htid : tid = cid
    · subst htid
      by_cases hsent : c.status = "sent".data
      · have hdb : (send_campaign db tid rd oc).1 = db := by
          unfold send_campaign
          rw [hc]
          show (sendBody db tid c rd oc).1 = db
          unfold sendBody
          rw [if_pos hsent]
        rw [hdb]
        exact ⟨⟨c, hc, hst4, hdraft, hcont, haud⟩, Or.inl le_rfl⟩
      · by_cases hco : pyStrip (c.subject.getD []) = [] ∨ pyStrip (c.body.getD []) = []
        · have hdb : (send_campaign db tid rd oc).1 = db := by
            unfold send_campaign
            rw [hc]
            show (sendBody db tid c rd oc).1 = db
            unfold sendBody
            rw [if_neg hsent, if_pos hco]
          rw [hdb]
          exact ⟨⟨c, hc, hst4, hdraft, hcont, haud⟩, Or.inl le_rfl⟩
        · by_cases hrec : campRecipients db tid = []
          · have hdb : (send_campaign db tid rd oc).1 = db := by
              unfold send_campaign
              rw [hc]
              show (sendBody db tid c rd oc).1 = db
              unfold sendBody
              rw [if_neg hsent, if_neg hco, if_pos hrec]
            rw [hdb]
            exact ⟨⟨c, hc, hst4, hdraft, hcont, haud⟩, Or.inl le_rfl⟩
          · have hget := send_self db tid c rd oc hc hsent hco hrec
            have hstat2 : statusOf ((send_campaign db tid rd oc).1) tid =
                some "sent".data := by
              unfold statusOf
              rw [hget]
              rfl
            refine ⟨⟨_, hget, Or.inr (Or.inr (Or.inr rfl)),
              fun hx => absurd (show ("sent".data : Str) = "draft".data from hx) (by decide),
              fun hx => ?_,
              fun hx => absurd (show ("sent".data : Str) = "audience".data from hx)
                (by decide)⟩, Or.inl ?_⟩
            · rcases hx with hx | hx
              · exact absurd (show ("sent".data : Str) = "ready".data from hx) (by decide)
              · exact absurd (show ("sent".data : Str) = "audience".data from hx) (by decide)
            · rw [hstat, hstat2]
              simp only [Option.getD_some]
              calc rank c.status ≤ 3 := rank_le_three c.status
                _ = rank "sent".data := by decide
    · have hg := send_other db tid cid rd oc htid
      have hstat2 : statusOf ((send_campaign db tid rd oc).1) cid = some c.status := by
        unfold statusOf
        rw [hg, hc]
        rfl
      refine ⟨⟨c, ?_, hst4, hdraft, hcont, haud⟩, Or.inl (by rw [hstat, hstat2])⟩
      rw [hg]
      exact hc
  | uploadOp tid es gen =>
    rw [applyOp_upload]
    by_cases htid : tid = cid
    · subst htid
      by_cases hsent : c.status = "sent".data
      · have hdb : (upload_emails db tid es gen).1 = db := by
          unfold upload_emails
          rw [hc]
          show (uploadBody db tid c es gen).1 = db
          unfold uploadBody
          rw [if_pos hsent]
        rw [hdb]
        exact ⟨⟨c, hc, hst4, hdraft, hcont, haud⟩, Or.inl le_rfl⟩
      · by_cases hne : es = []
        · have hdb : (upload_emails db tid es gen).1 = db := by
            unfold upload_emails
            rw [hc]
            show (uploadBody db tid c es gen).1 = db
            unfold uploadBody
            rw [if_neg hsent, if_pos hne]
          rw [hdb]
          exact ⟨⟨c, hc, hst4, hdraft, hcont, haud⟩, Or.inl le_rfl⟩
        · by_cases hlen : 1000 < es.length
          · have hdb : (upload_emails db tid es gen).1 = db := by
              unfold upload_emails
              rw [hc]
              show (uploadBody db tid c es gen).1 = db
              unfold uploadBody
              rw [if_neg hsent, if_neg hne, if_pos hlen]
            rw [hdb]
            exact ⟨⟨c, hc, hst4, hdraft, hcont, haud⟩, Or.inl le_rfl⟩
          · have hget := upload_self db tid c es gen hc hsent hne hlen
            by_cases hhc : pyStrip (c.subject.getD []) = []
            · have hns : uploadNextStatus c (uploadLoop gen 0 es).length = "draft".data := by
                unfold uploadNextStatus
                rw [if_neg (fun hx => hx.1 hhc), if_pos (fun hx => hx hhc)]
              rw [hns] at hget
              have hcd : c.status = "draft".data := by
                rcases hst4 with h4 | h4 | h4 | h4
                · exact h4
                · exact absurd hhc (hcont (Or.inl h4))
                · exact absurd hhc (hcont (Or.inr h4))
                · exact absurd h4 hsent
              have hstat2 : statusOf ((upload_emails db tid es gen).1) tid =
                  some "draft".data := by
                unfold statusOf
                rw [hget]
                rfl
              refine ⟨⟨_, hget, Or.inl rfl, fun _ => hhc,
                fun hx => ?_,
                fun hx => absurd (show ("draft".data : Str) = "audience".data from hx)
                  (by decide)⟩, Or.inl ?_⟩
              · rcases hx with hx | hx
                · exact absurd (show ("draft".data : Str) = "ready".data from hx) (by decide)
                · exact absurd (show ("draft".data : Str) = "audience".data from hx) (by decide)
              · rw [hstat, hstat2, hcd]


            · by_cases hcnt : 0 < (uploadLoop gen 0 es).length
              · have hns : uploadNextStatus c (uploadLoop gen 0 es).length =
                    "audience".data := by
                  unfold uploadNextStatus
                  rw [if_pos ⟨hhc, hcnt⟩]
                rw [hns] at hget
                have hstat2 : statusOf ((upload_emails db tid es gen).1) tid =
                    some "audience".data := by
                  unfold statusOf
                  rw [hget]
                  rfl
                refine ⟨⟨_, hget, Or.inr (Or.inr (Or.inl rfl)),
                  fun hx => absurd (show ("audience".data : Str) = "draft".data from hx)
                    (by decide),
                  fun _ => hhc, fun _ => hcnt⟩, Or.inl ?_⟩
                rw [hstat, hstat2]
                simp only [Option.getD_some]
                rcases hst4 with h4 | h4 | h4 | h4
                · exact absurd (hdraft h4) hhc
                · rw [h4]; decide
                · rw [h4]
                · exact absurd h4 hsent
              · have hns : uploadNextStatus c (uploadLoop gen 0 es).length =
                    "ready".data := by
                  unfold uploadNextStatus
                  rw [if_neg (fun hx => hcnt hx.2), if_neg (fun hx => hx hhc)]
                rw [hns] at hget
                have hstat2 : statusOf ((upload_emails db tid es gen).1) tid =
                    some "ready".data := by
                  unfold statusOf
                  rw [hget]
                  rfl
                refine ⟨⟨_, hget, Or.inr (Or.inl rfl),
                  fun hx => absurd (show ("ready".data : Str) = "draft".data from hx)
                    (by decide),
                  fun _ => hhc,
                  fun hx => absurd (show ("ready".data : Str) = "audience".data from hx)
                    (by decide)⟩, ?_⟩
                rcases hst4 with h4 | h4 | h4 | h4
                · exact absurd (hdraft h4) hhc
                · refine Or.inl ?_
                  rw [hstat, hstat2, h4]
                · refine Or.inr ⟨⟨tid, es, gen, rfl⟩, ?_, hstat2⟩
                  rw [hstat, h4]
                · exact absurd h4 hsent
    · have hg := upload_other db tid cid es gen htid
      have hstat2 : statusOf ((upload_emails db tid es gen).1) cid = some c.status := by
        unfold statusOf
        rw [hg, hc]
        rfl
      refine ⟨⟨c, ?_, hst4, hdraft, hcont, haud⟩, Or.inl (by rw [hstat, hstat2])⟩
      rw [hg]
      exact hc

/-- Witness for C2 (amended) at a concrete ready campaign and one upload. -/
theorem C2_transitions_witness :
    CampInv (applyOp dbReady (.uploadOp 0 ["a@x".data] (fun _ => "t0".data))) 0 ∧
    (rank ((statusOf dbReady 0).getD []) ≤
        rank ((statusOf (applyOp dbReady
          (.uploadOp 0 ["a@x".data] (fun _ => "t0".data))) 0).getD []) ∨
      ((∃ tid es gen,
          (Op.uploadOp 0 ["a@x".data] (fun _ => "t0".data)) = Op.uploadOp tid es gen) ∧
        statusOf dbReady 0 = some "audience".data ∧
        statusOf (applyOp dbReady (.uploadOp 0 ["a@x".data] (fun _ => "t0".data))) 0 =
          some "ready".data)) :=
  C2_transitions dbReady 0 (.uploadOp 0 ["a@x".data] (fun _ => "t0".data))
    ⟨⟨"Q1".data, "ready".data, some "Hi".data, some "Hello".data, 0⟩, rfl,
      Or.inr (Or.inl rfl),
      fun hx => absurd (show ("ready".data : Str) = "draft".data from hx) (by decide),
      fun _ => by decide,
      fun hx => absurd (show ("ready".data : Str) = "audience".data from hx) (by decide)⟩
